import Mathlib

/-!
Shallow embedding of the client-side application controller in
`src/front-end/assets/script.js` (class `TodoApp`).

The controller's mutable fields (`currentProject`, `projects`, `todos`,
`currentFilter`) and the DOM surface the operations read or write
(`todoContent`'s hidden class, `todoInput.value`, `projectSelect.value`,
the transient error banners) are collected in one record `TodoApp`.
Each `async` method becomes a pure function taking the state together
with the outcome of its awaited API call (`none` = the promise rejected,
`some v` = it resolved with `v`), returning the new state plus an effect
log: the API calls issued and whether `render()` ran.
-/

/-- A todo record: `{ id, text, completed }`. -/
structure Todo where
  id : Int
  text : String
  completed : Bool
deriving DecidableEq, Repr

/-- A project record: `{ id, name }`.  Ids travel through the DOM
(`<option value>` / `projectSelect.value`), so they are strings here. -/
structure Project where
  id : String
  name : String
deriving DecidableEq, Repr

/-- A transient error banner created by `showError`: the message and the
`setTimeout` delay (in milliseconds) after which it removes itself. -/
structure ErrorBanner where
  message : String
  removeAfterMs : Nat
deriving DecidableEq, Repr

/-- The controller state: the four in-memory fields of the `TodoApp`
class plus the DOM cells its methods read or write. -/
structure TodoApp where
  currentProject : Option String
  projects : List Project
  todos : List Todo
  currentFilter : String
  todoContentHidden : Bool
  todoInputValue : String
  projectSelectValue : String
  banners : List ErrorBanner
deriving DecidableEq, Repr

/-- The API requests a method can issue (the endpoints of `TodoAPI`),
with the arguments the code passes. -/
inductive ApiCall where
  | getProjects
  | createProject (name : String)
  | deleteProject (id : String)
  | getTodos (projectId : String)
  | createTodo (projectId : String) (text : String) (completed : Bool)
  | updateTodo (projectId : Option String) (id : Int) (completed : Bool)
  | deleteTodo (projectId : Option String) (id : Int)
deriving DecidableEq, Repr

/-- Result of running one controller method: the state afterwards, the
API calls it issued (whether or not they succeeded), and whether it
invoked `render()`. -/
structure OpResult where
  app : TodoApp
  calls : List ApiCall
  rendered : Bool
deriving DecidableEq, Repr

/-- Method `showError(message)`: appends a banner above the todo list and
schedules its removal via `setTimeout(..., 3000)`. -/
def showError (app : TodoApp) (message : String) : TodoApp :=
  { app with banners := app.banners ++ [⟨message, 3000⟩] }

/-- Method `loadProjects()`: replaces the project list with the server's answer;
on rejection, shows `Failed to load projects` and touches no state. -/
def loadProjects (app : TodoApp) (result : Option (List Project)) : OpResult :=
  match result with
  | some ps => ⟨{ app with projects := ps }, [ApiCall.getProjects], false⟩
  | none => ⟨showError app "Failed to load projects", [ApiCall.getProjects], false⟩

/-- Method `changeProject()`: reads `projectSelect.value`; an empty selection
hides the todo view and returns.  Otherwise it sets `currentProject`
first, then awaits `getTodos`; only on success are `todos` replaced,
the view unhidden and `render()` run. -/
def changeProject (app : TodoApp) (fetch : Option (List Todo)) : OpResult :=
  let projectId := app.projectSelectValue
  if projectId = "" then
    ⟨{ app with todoContentHidden := true }, [], false⟩
  else
    let app1 := { app with currentProject := some projectId }
    match fetch with
    | some ts =>
        ⟨{ app1 with todos := ts, todoContentHidden := false },
         [ApiCall.getTodos projectId], true⟩
    | none =>
        ⟨showError app1 "Failed to load todos", [ApiCall.getTodos projectId], false⟩

/-- Method `createProject()`: `prompt` result (`none` = cancelled); a falsy name
is a no-op.  On success the project is pushed, the selector set to it
and `changeProject()` awaited (whose own `getTodos` outcome is `fetch`). -/
def createProject (app : TodoApp) (nameInput : Option String)
    (result : Option Project) (fetch : Option (List Todo)) : OpResult :=
  match nameInput with
  | none => ⟨app, [], false⟩
  | some name =>
    if name = "" then ⟨app, [], false⟩
    else
      match result with
      | none => ⟨showError app "Failed to create project", [ApiCall.createProject name], false⟩
      | some project =>
          let app1 := { app with projects := app.projects ++ [project],
                                 projectSelectValue := project.id }
          let r := changeProject app1 fetch
          ⟨r.app, ApiCall.createProject name :: r.calls, r.rendered⟩

/-- Method `deleteProject()`: a no-op without a current project or without the
user's `confirm`.  On success the project is filtered out of the list,
the selection cleared and the todo view hidden. -/
def deleteProject (app : TodoApp) (confirmed : Bool) (result : Option Unit) : OpResult :=
  match app.currentProject with
  | none => ⟨app, [], false⟩
  | some pid =>
    if !confirmed then ⟨app, [], false⟩
    else
      match result with
      | some _ =>
          ⟨{ app with projects := app.projects.filter (fun p => p.id ≠ pid),
                      currentProject := none,
                      todoContentHidden := true },
           [ApiCall.deleteProject pid], false⟩
      | none => ⟨showError app "Failed to delete project", [ApiCall.deleteProject pid], false⟩

/-- Whitespace trimming as performed by `String.prototype.trim` in
`addTodo`: leading and trailing whitespace characters are dropped. -/
def trimText (s : String) : String :=
  ⟨((s.data.dropWhile Char.isWhitespace).reverse.dropWhile Char.isWhitespace).reverse⟩

/-- Method `addTodo()`: trims the input; a falsy text or missing current project
is a no-op.  Otherwise `createTodo(currentProject, {text, completed:false})`
is awaited; on success the returned record is pushed and the input cleared. -/
def addTodo (app : TodoApp) (result : Option Todo) : OpResult :=
  let text := trimText app.todoInputValue
  if text = "" then ⟨app, [], false⟩
  else
    match app.currentProject with
    | none => ⟨app, [], false⟩
    | some pid =>
      match result with
      | some todo =>
          ⟨{ app with todos := app.todos ++ [todo], todoInputValue := "" },
           [ApiCall.createTodo pid text false], true⟩
      | none =>
          ⟨showError app "Failed to add todo", [ApiCall.createTodo pid text false], false⟩

/-- Method `toggleTodo(id)`: a no-op when `find` misses.  Otherwise
`updateTodo(currentProject, id, {completed: !todo.completed})` is
awaited; on success every entry whose id matches is mapped to the
server's record. -/
def toggleTodo (app : TodoApp) (id : Int) (result : Option Todo) : OpResult :=
  match app.todos.find? (fun t => t.id = id) with
  | none => ⟨app, [], false⟩
  | some todo =>
    match result with
    | some updated =>
        ⟨{ app with todos := app.todos.map (fun t => if t.id = id then updated else t) },
         [ApiCall.updateTodo app.currentProject id (!todo.completed)], true⟩
    | none =>
        ⟨showError app "Failed to update todo",
         [ApiCall.updateTodo app.currentProject id (!todo.completed)], false⟩

/-- Method `deleteTodo(id)`: issues the delete unconditionally; on success the
id is filtered out of the local list and `render()` runs. -/
def deleteTodo (app : TodoApp) (id : Int) (result : Option Unit) : OpResult :=
  match result with
  | some _ =>
      ⟨{ app with todos := app.todos.filter (fun t => t.id ≠ id) },
       [ApiCall.deleteTodo app.currentProject id], true⟩
  | none =>
      ⟨showError app "Failed to delete todo",
       [ApiCall.deleteTodo app.currentProject id], false⟩

/-- Method `setFilter(filter)`: pure state change followed by `render()`. -/
def setFilter (app : TodoApp) (filter : String) : OpResult :=
  ⟨{ app with currentFilter := filter }, [], true⟩

/-- Method `getFilteredTodos()`: the `switch` on `currentFilter`. -/
def getFilteredTodos (app : TodoApp) : List Todo :=
  match app.currentFilter with
  | "active" => app.todos.filter (fun t => !t.completed)
  | "completed" => app.todos.filter (fun t => t.completed)
  | _ => app.todos

/-- The counter text written by `render()`:
`` `${activeTodos} task${activeTodos !== 1 ? 's' : ''} left` ``. -/
def taskCountText (todos : List Todo) : String :=
  let activeTodos := (todos.filter (fun t => !t.completed)).length
  toString activeTodos ++ " task" ++ (if activeTodos ≠ 1 then "s" else "") ++ " left"

/-- The four in-memory fields the spec calls the controller's state. -/
def coreState (app : TodoApp) : Option String × List Project × List Todo × String :=
  (app.currentProject, app.projects, app.todos, app.currentFilter)

/-- The spec's invariant: the in-memory todo list is the one belonging
to the currently selected project, as served by `server`. -/
def todosMatchCurrent (server : String → List Todo) (app : TodoApp) : Prop :=
  ∀ pid, app.currentProject = some pid → app.todos = server pid

/-- Spec-side definition, following the rendering contract's words: the
per-filter predicate (active: not completed; completed: completed; all:
every todo), to be compared with `getFilteredTodos`. -/
def filterPredicate (filter : String) (t : Todo) : Bool :=
  match filter with
  | "active" => !t.completed
  | "completed" => t.completed
  | _ => true

/-- A sample incomplete todo. -/
def todoA : Todo := ⟨1, "Buy milk", false⟩

/-- A sample completed todo. -/
def todoB : Todo := ⟨2, "Write report", true⟩

/-- The record the server could return for toggling `todoB`. -/
def todoB2 : Todo := ⟨2, "Write report", false⟩

/-- The record the server could return for `addTodo` on `appW`. -/
def todoC : Todo := ⟨3, "hello", false⟩

/-- A sample controller state used to instantiate the theorems. -/
def appW : TodoApp :=
  { currentProject := some "p0",
    projects := [⟨"p0", "Home"⟩, ⟨"p1", "Work"⟩],
    todos := [todoA, todoB], currentFilter := "all",
    todoContentHidden := false, todoInputValue := "  hello  ",
    projectSelectValue := "p1", banners := [] }

/-- Variant of `appW` whose filter is `active`. -/
def appActive : TodoApp := { appW with currentFilter := "active" }

/-- Variant of `appW` whose filter is outside the three documented values. -/
def appOther : TodoApp := { appW with currentFilter := "soon" }

/-- Variant of `appW` whose project selector holds the empty selection. -/
def appEmptySel : TodoApp := { appW with projectSelectValue := "" }

/-- A fresh controller state (nothing selected yet) whose selector was
just moved to project `p1`. -/
def appCx : TodoApp :=
  { currentProject := none, projects := [], todos := [], currentFilter := "all",
    todoContentHidden := true, todoInputValue := "", projectSelectValue := "p1",
    banners := [] }

/-- A server oracle: every project has exactly one todo. -/
def serverCx : String → List Todo := fun _ => [⟨1, "x", false⟩]

/-- Claim C1 fails as stated: a failed `getTodos` inside `changeProject`
does NOT leave the in-memory state exactly as before, because
`currentProject` is assigned before the fetch is awaited.  Starting from
a fresh state with the selector on `p1`, the failed operation changes
`currentProject` from `none` to `some p1`. -/
theorem changeProject_failedFetch_movesCurrentProject :
    coreState (changeProject appCx none).app ≠ coreState appCx := by decide

/-- Claim C1, amended: a failed API call leaves the in-memory state
(`projects`, `currentProject`, `todos`, `currentFilter`) exactly as
before for `loadProjects`, `createProject`, `deleteProject`, `addTodo`,
`toggleTodo` and `deleteTodo`; a failed `changeProject` leaves
`projects`, `todos` and `currentFilter` unchanged but has already set
`currentProject` to the id in the selector (whenever that is non-empty). -/
theorem apiFailure_coreState (app : TodoApp) (id : Int) (name : String)
    (fetch : Option (List Todo)) (confirmed : Bool) :
    coreState (loadProjects app none).app = coreState app ∧
    coreState (createProject app (some name) none fetch).app = coreState app ∧
    coreState (deleteProject app confirmed none).app = coreState app ∧
    coreState (addTodo app none).app = coreState app ∧
    coreState (toggleTodo app id none).app = coreState app ∧
    coreState (deleteTodo app id none).app = coreState app ∧
    (changeProject app none).app.projects = app.projects ∧
    (changeProject app none).app.todos = app.todos ∧
    (changeProject app none).app.currentFilter = app.currentFilter ∧
    (changeProject app none).app.currentProject =
      (if app.projectSelectValue = "" then app.currentProject
       else some app.projectSelectValue) := by
  refine ⟨rfl, ?_, ?_, ?_, ?_, rfl, ?_, ?_, ?_, ?_⟩ <;>
    simp only [createProject, deleteProject, addTodo, toggleTodo, changeProject,
      showError, coreState] <;>
    repeat' split <;> simp_all [coreState, showError]

/-- Claim C2 fails as stated: the invariant "the in-memory todo list
corresponds to the current project" is not preserved by a failing
`changeProject`.  With a server whose project `p1` has one todo, the
fresh state satisfies the invariant vacuously, but after the failed
fetch `currentProject` is `some p1` while `todos` is still `[]`. -/
theorem changeProject_failedFetch_breaksInvariant :
    todosMatchCurrent serverCx appCx ∧
    ¬ todosMatchCurrent serverCx (changeProject appCx none).app := by
  constructor
  · intro pid h
    simp [appCx] at h
  · intro h
    have hx := h "p1" (by decide)
    simp [serverCx, appCx, changeProject, showError] at hx

/-- Claim C2, amended: a successful `changeProject` re-establishes the
invariant (`todos` becomes the fetched list of the now-current project),
and a successful `deleteProject` clears the current selection and hides
the todo view; but a FAILED `changeProject` breaks the invariant:
`currentProject` becomes the new selection while `todos` keeps the
previous project's list. -/
theorem todosMatchCurrent_afterProjectOps (server : String → List Todo)
    (app : TodoApp) (pid : String)
    (hsel : app.projectSelectValue ≠ "") (hcur : app.currentProject = some pid) :
    todosMatchCurrent server (changeProject app (some (server app.projectSelectValue))).app ∧
    (deleteProject app true (some ())).app.currentProject = none ∧
    (deleteProject app true (some ())).app.todoContentHidden = true ∧
    (changeProject app none).app.currentProject = some app.projectSelectValue ∧
    (changeProject app none).app.todos = app.todos := by
  refine ⟨?_, ?_, ?_, ?_, ?_⟩
  · intro q hq
    simp [changeProject, hsel] at hq ⊢
    rw [← hq]
  all_goals simp [deleteProject, changeProject, showError, hsel, hcur]

/-- Witness for the amended claim C2, at the sample state `appW` (current
project `p0`, selector on `p1`) and the oracle `serverCx`. -/
theorem todosMatchCurrent_afterProjectOps_witness :
    (changeProject appW (some (serverCx appW.projectSelectValue))).app.todos =
      serverCx appW.projectSelectValue ∧
    (deleteProject appW true (some ())).app.currentProject = none := by
  have h := todosMatchCurrent_afterProjectOps serverCx appW "p0" (by decide) (by decide)
  exact ⟨h.1 appW.projectSelectValue (by decide), h.2.1⟩

/-- Claim C3: for each documented filter value, `getFilteredTodos`
returns exactly the subset of todos satisfying the filter's predicate,
in the original relative order (a `List.filter`, hence a sublist). -/
theorem getFilteredTodos_matchesPredicate (app : TodoApp)
    (h : app.currentFilter = "all" ∨ app.currentFilter = "active" ∨
         app.currentFilter = "completed") :
    getFilteredTodos app = app.todos.filter (filterPredicate app.currentFilter) ∧
    (getFilteredTodos app).Sublist app.todos := by
  have ha : filterPredicate "active" = fun t : Todo => !t.completed := rfl
  have hc : filterPredicate "completed" = fun t : Todo => t.completed := rfl
  have hl : filterPredicate "all" = fun _ : Todo => true := rfl
  rcases h with h | h | h <;>
    simp [getFilteredTodos, h, ha, hc, hl, List.filter_sublist]

/-- Witness for claim C3 at the sample state with filter `active`. -/
theorem getFilteredTodos_matchesPredicate_witness :
    getFilteredTodos appActive =
      appActive.todos.filter (filterPredicate appActive.currentFilter) ∧
    (getFilteredTodos appActive).Sublist appActive.todos :=
  getFilteredTodos_matchesPredicate appActive (by decide)

/-- Helper for claim C4: when index `j` is the unique position whose id
matches, the `map` in `toggleTodo` is exactly a point update at `j`. -/
theorem map_replace_eq_set (l : List Todo) (id : Int) (u : Todo) (j : Nat)
    (hj : j < l.length) (hid : l[j].id = id)
    (huniq : ∀ k (hk : k < l.length), l[k].id = id → k = j) :
    l.map (fun t => if t.id = id then u else t) = l.set j u := by
  apply List.ext_getElem
  · simp
  · intro k h1 h2
    simp only [List.getElem_map, List.getElem_set]
    by_cases hk : j = k
    · subst hk
      simp [hid]
    · have hkl : k < l.length := by simpa using h1
      have hne : l[k].id ≠ id := fun hc => hk ((huniq k hkl hc).symm)
      simp [hne, hk]

/-- Claim C4: `toggleTodo(id)` is a no-op (no state change, no API call,
no render) when no local todo has that id; on success, with `j` the
unique matching position, the list is the old list with exactly position
`j` replaced by the server's record — all other entries keep their value
and position. -/
theorem toggleTodo_replacesExactlyMatch (app : TodoApp) (id : Int)
    (updated : Todo) (r : Option Todo) (j : Nat)
    (hj : j < app.todos.length) (hid : (app.todos[j]).id = id)
    (huniq : ∀ k (hk : k < app.todos.length), (app.todos[k]).id = id → k = j) :
    (toggleTodo app id (some updated)).app.todos = app.todos.set j updated ∧
    (∀ app2 : TodoApp, (∀ t ∈ app2.todos, t.id ≠ id) →
      toggleTodo app2 id r = ⟨app2, [], false⟩) := by
  constructor
  · rcases hfind : app.todos.find? (fun t => t.id = id) with _ | todo
    · exact absurd (by simpa using List.find?_eq_none.mp hfind _ (List.getElem_mem hj))
        (by simp [hid])
    · simp only [toggleTodo, hfind]
      exact map_replace_eq_set app.todos id updated j hj hid huniq
  · intro app2 h
    have hf : app2.todos.find? (fun t => t.id = id) = none :=
      List.find?_eq_none.mpr (fun t ht => by simpa using h t ht)
    simp [toggleTodo, hf]

/-- Witness for claim C4: toggling id 2 in the sample state replaces
position 1 with the server's record. -/
theorem toggleTodo_replacesExactlyMatch_witness :
    (toggleTodo appW 2 (some todoB2)).app.todos = appW.todos.set 1 todoB2 :=
  (toggleTodo_replacesExactlyMatch appW 2 todoB2 none 1
    (by decide) (by decide) (by decide)).1

/-- Claim C5: the rendered counter text is the number of todos with
`completed = false`, followed by `task left` exactly when that count is
1 and by `tasks left` for every other count. -/
theorem taskCountText_pluralization (todos : List Todo) :
    taskCountText todos =
      toString (todos.countP (fun t => t.completed == false)) ++
        (if todos.countP (fun t => t.completed == false) = 1
         then " task left" else " tasks left") := by
  have hp : (fun t : Todo => !t.completed) = (fun t => t.completed == false) := by
    funext t; cases t.completed <;> rfl
  show toString _ ++ " task" ++ _ ++ " left" = _
  rw [hp, ← List.countP_eq_length_filter]
  by_cases h : todos.countP (fun t => t.completed == false) = 1
  · rw [h]; rfl
  · rw [if_neg h, if_pos h, String.append_assoc, String.append_assoc]
    congr 1

/-- Claim C6: `addTodo` with whitespace-only input or no current project
performs no API call and no state change; otherwise it issues a
`createTodo` with `completed = false`, appends the server's record to
the end of the list and clears the input. -/
theorem addTodo_spec (app : TodoApp) (result : Option Todo)
    (created : Todo) (pid : String) :
    ((trimText app.todoInputValue = "" ∨ app.currentProject = none) →
      addTodo app result = ⟨app, [], false⟩) ∧
    (trimText app.todoInputValue ≠ "" → app.currentProject = some pid →
      addTodo app (some created) =
        ⟨{ app with todos := app.todos ++ [created], todoInputValue := "" },
         [ApiCall.createTodo pid (trimText app.todoInputValue) false], true⟩) := by
  constructor
  · rintro (h | h) <;> simp [addTodo, h]
  · intro h1 h2
    simp [addTodo, h1, h2]

/-- Witness for claim C6: adding the trimmed text `hello` to the sample
state appends the server's record and clears the input. -/
theorem addTodo_spec_witness :
    addTodo appW (some todoC) =
      ⟨{ appW with todos := appW.todos ++ [todoC], todoInputValue := "" },
       [ApiCall.createTodo "p0" (trimText appW.todoInputValue) false], true⟩ :=
  (addTodo_spec appW (some todoC) todoC "p0").2 (by decide) (by decide)

/-- Claim C7: `changeProject` on an empty selection hides the todo view,
issues no API call, does not render, and changes nothing else. -/
theorem changeProject_emptySelection (app : TodoApp) (fetch : Option (List Todo))
    (h : app.projectSelectValue = "") :
    changeProject app fetch = ⟨{ app with todoContentHidden := true }, [], false⟩ := by
  simp [changeProject, h]

/-- Witness for claim C7 at the sample state with an empty selector. -/
theorem changeProject_emptySelection_witness :
    changeProject appEmptySel (some []) =
      ⟨{ appEmptySel with todoContentHidden := true }, [], false⟩ :=
  changeProject_emptySelection appEmptySel (some []) (by decide)

/-- Claim C8: a failed `deleteTodo` leaves the todo list (and every other
field) unchanged, appends the fixed banner `Failed to delete todo`, and
that banner removes itself after 3000 ms (3 seconds). -/
theorem deleteTodo_failure_banner (app : TodoApp) (id : Int) :
    deleteTodo app id none =
      ⟨{ app with banners := app.banners ++ [⟨"Failed to delete todo", 3000⟩] },
       [ApiCall.deleteTodo app.currentProject id], false⟩ := rfl

/-- Claim C9: every `currentFilter` other than `active` and `completed`
— not only `all` — falls through to the `switch`'s default case, which
returns the entire todo list. -/
theorem getFilteredTodos_default (app : TodoApp)
    (h1 : app.currentFilter ≠ "active") (h2 : app.currentFilter ≠ "completed") :
    getFilteredTodos app = app.todos := by
  unfold getFilteredTodos
  split <;> simp_all

/-- Witness for claim C9 at the sample state with the undocumented
filter value `soon`. -/
theorem getFilteredTodos_default_witness :
    getFilteredTodos appOther = appOther.todos :=
  getFilteredTodos_default appOther (by decide) (by decide)

/-- Claim C10: `deleteTodo(id)` issues the API delete even for an id
absent from the local list; when that call succeeds the list is
unchanged (the filter removes nothing) and a render still happens —
whereas `toggleTodo` on the same absent id short-circuits entirely. -/
theorem deleteTodo_absentId (app : TodoApp) (id : Int) (r : Option Todo)
    (h : ∀ t ∈ app.todos, t.id ≠ id) :
    (deleteTodo app id (some ())).calls = [ApiCall.deleteTodo app.currentProject id] ∧
    (deleteTodo app id (some ())).app.todos = app.todos ∧
    (deleteTodo app id (some ())).rendered = true ∧
    toggleTodo app id r = ⟨app, [], false⟩ := by
  refine ⟨rfl, ?_, rfl, ?_⟩
  · simp only [deleteTodo]
    exact List.filter_eq_self.mpr (fun t ht => by simpa using h t ht)
  · have hf : app.todos.find? (fun t => t.id = id) = none :=
      List.find?_eq_none.mpr (fun t ht => by simpa using h t ht)
    simp [toggleTodo, hf]

/-- Witness for claim C10: deleting the absent id 5 from the sample
state calls the API, keeps the list, and renders. -/
theorem deleteTodo_absentId_witness :
    (deleteTodo appW 5 (some ())).calls = [ApiCall.deleteTodo appW.currentProject 5] ∧
    (deleteTodo appW 5 (some ())).app.todos = appW.todos ∧
    (deleteTodo appW 5 (some ())).rendered = true ∧
    toggleTodo appW 5 none = ⟨appW, [], false⟩ :=
  deleteTodo_absentId appW 5 none (by decide)
